import Mathlib

/-!
Verification of the tiered storage layer of the DEVISA library service
(`src/services/library.service.ts`).  The definitions below are a shallow
embedding of that TypeScript file: byte buffers (`ArrayBuffer`) become
`List Nat` with every entry below 256, JS strings become `List Char` (or
`String` where convenient), promise rejection becomes `Except Unit`, and
the mutable service state becomes an explicit `LibState` record that each
operation threads through.
-/

namespace Devisa

/-! ## Binary codec (`_arrayBufferToBase64`, `_base64ToArrayBuffer`) -/

/-- The standard radix-64 alphabet used by `btoa`/`atob`. -/
def b64Alphabet : List Char :=
  ['A','B','C','D','E','F','G','H','I','J','K','L','M','N','O','P',
   'Q','R','S','T','U','V','W','X','Y','Z',
   'a','b','c','d','e','f','g','h','i','j','k','l','m','n','o','p',
   'q','r','s','t','u','v','w','x','y','z',
   '0','1','2','3','4','5','6','7','8','9','+','/']

/-- The alphabet character for a 6-bit value. -/
def b64Char (n : Nat) : Char := b64Alphabet.getD n '='

/-- The 6-bit value of an alphabet character (junk `64` for others). -/
def b64Val (c : Char) : Nat := b64Alphabet.indexOf c

/-- `btoa`: encode a latin-1 code sequence (each entry < 256) in radix 64,
three input bytes per four output characters, `=`-padded at the end. -/
def btoa : List Nat → List Char
  | [] => []
  | [b1] => [b64Char (b1 / 4), b64Char (b1 % 4 * 16), '=', '=']
  | [b1, b2] =>
      [b64Char (b1 / 4), b64Char (b1 % 4 * 16 + b2 / 16), b64Char (b2 % 16 * 4), '=']
  | b1 :: b2 :: b3 :: rest =>
      b64Char (b1 / 4) :: b64Char (b1 % 4 * 16 + b2 / 16) ::
      b64Char (b2 % 16 * 4 + b3 / 64) :: b64Char (b3 % 64) :: btoa rest

/-- `atob`: decode a radix-64 string back to latin-1 codes.  Four characters
per three bytes; a trailing `=` or `==` shortens the last group. -/
def atob : List Char → List Nat
  | c1 :: c2 :: c3 :: c4 :: rest =>
      if rest = [] ∧ c3 = '=' ∧ c4 = '=' then
        [b64Val c1 * 4 + b64Val c2 / 16]
      else if rest = [] ∧ c4 = '=' then
        [b64Val c1 * 4 + b64Val c2 / 16, b64Val c2 % 16 * 16 + b64Val c3 / 4]
      else
        (b64Val c1 * 4 + b64Val c2 / 16) :: (b64Val c2 % 16 * 16 + b64Val c3 / 4) ::
        (b64Val c3 % 4 * 64 + b64Val c4) :: atob rest
  | _ => []

/-- The chunked loop of `_arrayBufferToBase64`: `binary` accumulates
`String.fromCharCode(...bytes.subarray(i, i + 8192))` for `i = k * 8192`,
`k` ranging over the `⌈byteLength / 8192⌉` loop iterations. -/
def chunkedBinary (bytes : List Nat) : List Nat :=
  (List.range ((bytes.length + 8191) / 8192)).foldl
    (fun acc k => acc ++ ((bytes.drop (k * 8192)).take 8192)) []

/-- `_arrayBufferToBase64(buffer)`: chunked char-code string, then `btoa`. -/
def arrayBufferToBase64 (bytes : List Nat) : List Char :=
  btoa (chunkedBinary bytes)

/-- `s.split(',')` on a character list. -/
def splitComma : List Char → List (List Char)
  | [] => [[]]
  | c :: rest =>
      match splitComma rest with
      | [] => if c = ',' then [[], []] else [[c]]
      | h :: t => if c = ',' then [] :: h :: t else (c :: h) :: t

/-- The operand `_base64ToArrayBuffer` actually decodes:
`base64.includes(',') ? base64.split(',')[1] : base64`. -/
def b64Operand (s : List Char) : List Char :=
  if ',' ∈ s then (splitComma s).getD 1 [] else s

/-- `_base64ToArrayBuffer(base64)`: strip a data-URI head, `atob`, then copy
the char codes into a `Uint8Array` (which truncates to 8 bits). -/
def base64ToArrayBuffer (s : List Char) : List Nat :=
  (atob (b64Operand s)).map (· % 256)

/-! ### Codec lemmas -/

theorem foldl_chunks (l : List Nat) (n : Nat) :
    (List.range n).foldl (fun acc k => acc ++ ((l.drop (k * 8192)).take 8192)) [] =
      l.take (n * 8192) := by
  induction n with
  | zero => simp
  | succ n ih =>
      rw [List.range_succ, List.foldl_append]
      simp only [List.foldl_cons, List.foldl_nil, ih]
      rw [Nat.succ_mul, List.take_add]

theorem chunkedBinary_eq (l : List Nat) : chunkedBinary l = l := by
  unfold chunkedBinary
  rw [foldl_chunks]
  exact List.take_of_length_le (by omega)

theorem b64Val_b64Char {n : Nat} (h : n < 64) : b64Val (b64Char n) = n := by
  interval_cases n <;> decide

theorem b64Char_ne_eqsign {n : Nat} (h : n < 64) : b64Char n ≠ '=' := by
  interval_cases n <;> decide

theorem b64Char_ne_comma {n : Nat} (h : n < 64) : b64Char n ≠ ',' := by
  interval_cases n <;> decide

theorem atob_btoa (bytes : List Nat) (h : ∀ b ∈ bytes, b < 256) :
    atob (btoa bytes) = bytes := by
  induction bytes using btoa.induct with
  | case1 => rfl
  | case2 b1 =>
      have hb1 : b1 < 256 := h b1 (by simp)
      rw [btoa, atob]
      rw [if_pos ⟨rfl, rfl, rfl⟩]
      have h1 : b1 / 4 < 64 := by omega
      have h2 : b1 % 4 * 16 < 64 := by omega
      rw [b64Val_b64Char h1, b64Val_b64Char h2]
      simp; omega
  | case3 b1 b2 =>
      have hb1 : b1 < 256 := h b1 (by simp)
      have hb2 : b2 < 256 := h b2 (by simp)
      rw [btoa, atob]
      have h1 : b1 / 4 < 64 := by omega
      have h2 : b1 % 4 * 16 + b2 / 16 < 64 := by omega
      have h3 : b2 % 16 * 4 < 64 := by omega
      rw [if_neg (by rintro ⟨-, hc, -⟩; exact b64Char_ne_eqsign h3 hc)]
      rw [if_pos ⟨rfl, rfl⟩]
      rw [b64Val_b64Char h1, b64Val_b64Char h2, b64Val_b64Char h3]
      simp; constructor <;> omega
  | case4 b1 b2 b3 rest ih =>
      have hb1 : b1 < 256 := h b1 (by simp)
      have hb2 : b2 < 256 := h b2 (by simp)
      have hb3 : b3 < 256 := h b3 (by simp)
      have hrest : ∀ b ∈ rest, b < 256 := fun b hb => h b (by simp [hb])
      rw [btoa, atob]
      have h1 : b1 / 4 < 64 := by omega
      have h2 : b1 % 4 * 16 + b2 / 16 < 64 := by omega
      have h3 : b2 % 16 * 4 + b3 / 64 < 64 := by omega
      have h4 : b3 % 64 < 64 := by omega
      rw [if_neg (by rintro ⟨-, hc, -⟩; exact b64Char_ne_eqsign h3 hc)]
      rw [if_neg (by rintro ⟨-, hc⟩; exact b64Char_ne_eqsign h4 hc)]
      rw [b64Val_b64Char h1, b64Val_b64Char h2, b64Val_b64Char h3, b64Val_b64Char h4]
      rw [ih hrest]
      simp; refine ⟨by omega, by omega, by omega⟩

theorem btoa_no_comma (bytes : List Nat) (h : ∀ b ∈ bytes, b < 256) :
    ',' ∉ btoa bytes := by
  induction bytes using btoa.induct with
  | case1 => simp [btoa]
  | case2 b1 =>
      have hb1 : b1 < 256 := h b1 (by simp)
      simp only [btoa, List.mem_cons, List.not_mem_nil, or_false]
      rintro (hc | hc | hc | hc)
      · exact b64Char_ne_comma (n := b1 / 4) (by omega) hc.symm
      · exact b64Char_ne_comma (n := b1 % 4 * 16) (by omega) hc.symm
      · exact absurd hc.symm (by decide)
      · exact absurd hc.symm (by decide)
  | case3 b1 b2 =>
      have hb1 : b1 < 256 := h b1 (by simp)
      have hb2 : b2 < 256 := h b2 (by simp)
      simp only [btoa, List.mem_cons, List.not_mem_nil, or_false]
      rintro (hc | hc | hc | hc)
      · exact b64Char_ne_comma (n := b1 / 4) (by omega) hc.symm
      · exact b64Char_ne_comma (n := b1 % 4 * 16 + b2 / 16) (by omega) hc.symm
      · exact b64Char_ne_comma (n := b2 % 16 * 4) (by omega) hc.symm
      · exact absurd hc.symm (by decide)
  | case4 b1 b2 b3 rest ih =>
      have hb1 : b1 < 256 := h b1 (by simp)
      have hb2 : b2 < 256 := h b2 (by simp)
      have hb3 : b3 < 256 := h b3 (by simp)
      have hrest : ∀ b ∈ rest, b < 256 := fun b hb => h b (by simp [hb])
      simp only [btoa, List.mem_cons]
      rintro (hc | hc | hc | hc | hc)
      · exact b64Char_ne_comma (n := b1 / 4) (by omega) hc.symm
      · exact b64Char_ne_comma (n := b1 % 4 * 16 + b2 / 16) (by omega) hc.symm
      · exact b64Char_ne_comma (n := b2 % 16 * 4 + b3 / 64) (by omega) hc.symm
      · exact b64Char_ne_comma (n := b3 % 64) (by omega) hc.symm
      · exact ih hrest hc

theorem b64Operand_of_no_comma {s : List Char} (h : ',' ∉ s) : b64Operand s = s := by
  simp [b64Operand, h]

/-- Round trip of the codec on the source's own encodings. -/
theorem roundTrip (bytes : List Nat) (h : ∀ b ∈ bytes, b < 256) :
    base64ToArrayBuffer (arrayBufferToBase64 bytes) = bytes := by
  unfold base64ToArrayBuffer arrayBufferToBase64
  rw [chunkedBinary_eq, b64Operand_of_no_comma (btoa_no_comma bytes h), atob_btoa bytes h]
  have : ∀ b ∈ bytes, b % 256 = b := fun b hb => Nat.mod_eq_of_lt (h b hb)
  exact List.map_congr_left this |>.trans (List.map_id bytes)

/-! ## Data model -/

/-- The `level` union type of `UserEbook`. -/
inductive BLevel
  | N5 | N4 | N3 | N2 | N1 | JFT | SEMUA
deriving DecidableEq

/-- The `fileType` union type of `UserEbook`. -/
inductive BFileType
  | PDF | URL | IMAGE | LAINNYA
deriving DecidableEq

/-- The `language` union type of `UserEbook`. -/
inductive BLanguage
  | ID | JA | EN | BILINGUAL
deriving DecidableEq

/-- The `UserEbook` interface.  `?`-marked TS fields become `Option`s. -/
structure UserEbook where
  id : String
  title : String
  author : String
  description : String
  level : BLevel
  category : String
  coverEmoji : String
  coverColor : String
  fileType : BFileType
  sourceUrl : Option String
  fileName : Option String
  fileSize : Option Nat
  fileMimeType : Option String
  totalPages : Option Nat
  language : BLanguage
  addedDate : String
  notes : Option String
deriving DecidableEq

/-- `Omit<UserEbook, 'id' | 'addedDate'>`: the caller-supplied metadata. -/
structure BookMeta where
  title : String
  author : String
  description : String
  level : BLevel
  category : String
  coverEmoji : String
  coverColor : String
  fileType : BFileType
  sourceUrl : Option String
  fileName : Option String
  fileSize : Option Nat
  fileMimeType : Option String
  totalPages : Option Nat
  language : BLanguage
  notes : Option String
deriving DecidableEq

/-- `Partial<UserEbook>`: every field may be present or absent.  A present
entry overrides the base record's field under object spread. -/
structure EbookPatch where
  id : Option String := none
  title : Option String := none
  author : Option String := none
  description : Option String := none
  level : Option BLevel := none
  category : Option String := none
  coverEmoji : Option String := none
  coverColor : Option String := none
  fileType : Option BFileType := none
  sourceUrl : Option (Option String) := none
  fileName : Option (Option String) := none
  fileSize : Option (Option Nat) := none
  fileMimeType : Option (Option String) := none
  totalPages : Option (Option Nat) := none
  language : Option BLanguage := none
  addedDate : Option String := none
  notes : Option (Option String) := none
deriving DecidableEq

/-- The object spread `{ ...b, ...p }` of `updateBook`. -/
def applyPatch (b : UserEbook) (p : EbookPatch) : UserEbook :=
  { id := p.id.getD b.id
    title := p.title.getD b.title
    author := p.author.getD b.author
    description := p.description.getD b.description
    level := p.level.getD b.level
    category := p.category.getD b.category
    coverEmoji := p.coverEmoji.getD b.coverEmoji
    coverColor := p.coverColor.getD b.coverColor
    fileType := p.fileType.getD b.fileType
    sourceUrl := p.sourceUrl.getD b.sourceUrl
    fileName := p.fileName.getD b.fileName
    fileSize := p.fileSize.getD b.fileSize
    fileMimeType := p.fileMimeType.getD b.fileMimeType
    totalPages := p.totalPages.getD b.totalPages
    language := p.language.getD b.language
    addedDate := p.addedDate.getD b.addedDate
    notes := p.notes.getD b.notes }

/-- The `StoredFileData` interface (payload passed to/from the drivers). -/
structure StoredFileData where
  id : String
  data : List Nat
  mimeType : String
deriving DecidableEq

/-- The shape of the `data` field found in a `files`-store entry: a real
`ArrayBuffer`, a plain `number[]`, or anything else. -/
inductive IdbFileContent
  | buffer (bytes : List Nat)
  | numArray (nums : List Nat)
  | other (bytes : List Nat)
deriving DecidableEq

/-- One entry of the IndexedDB `files` object store. -/
structure IdbFileEntry where
  id : String
  data : IdbFileContent
  mimeType : String
deriving DecidableEq

/-- Content of a file in the Capacitor filesystem: the host may hand back a
string or raw bytes on read (`typeof result.data === 'string'` branch). -/
inductive FsContent
  | text (s : List Char)
  | raw (bytes : List Nat)
deriving DecidableEq

/-- Failure switches for each fallible collaborator call; a `true` switch
makes the corresponding call throw/reject when it is reached. -/
structure Env where
  prefSetFails : Bool := false
  fsWriteFails : Bool := false
  fsReadFails : Bool := false
  fsDeleteFails : Bool := false
  idbPutBookFails : Bool := false
  idbDeleteBookFails : Bool := false
  idbPutFileFails : Bool := false
  idbGetFileFails : Bool := false
  idbDeleteFileFails : Bool := false
  localSetFails : Bool := false
deriving DecidableEq

/-- The mutable state of a `LibraryService` instance plus its durable
stores: the `books` signal cache, which plugins/DB handles are available,
the parsed Preferences value, the payload files area, the two IndexedDB
object stores, and the parsed localStorage value. -/
structure LibState where
  books : List UserEbook
  isNative : Bool
  hasPreferences : Bool
  hasFilesystem : Bool
  hasDb : Bool
  prefBooks : Option (List UserEbook)
  fsFiles : List (String × FsContent)
  idbBooks : List UserEbook
  idbFiles : List IdbFileEntry
  localBooks : Option (List UserEbook)
deriving DecidableEq

/-- An operation's outcome: the state after it and its settled promise. -/
abbrev LRes (α : Type) := LibState × Except Unit α

/-- JS `o || d` on an optional string field: absent and `''` are falsy. -/
def orDefault (o : Option String) (d : String) : String :=
  match o with
  | none => d
  | some s => if s = "" then d else s

/-- `_nativeFilePath`. -/
def nativeFilePath (bookId : String) : String := "ebooks/" ++ bookId ++ ".bin"

/-! ## Drivers -/

/-- `_localStorageSaveBooks`: `setItem` with failures swallowed. -/
def localStorageSaveBooks (env : Env) (st : LibState) (books : List UserEbook) :
    LibState :=
  if env.localSetFails then st else { st with localBooks := some books }

/-- `_nativeSaveBooks`: Preferences `set`, falling back to localStorage on a
missing plugin or on failure; never rejects. -/
def nativeSaveBooks (env : Env) (st : LibState) (books : List UserEbook) : LibState :=
  if st.hasPreferences then
    if env.prefSetFails then localStorageSaveBooks env st books
    else { st with prefBooks := some books }
  else localStorageSaveBooks env st books

/-- Overwrite/insert a path in the files area. -/
def fsWrite (fs : List (String × FsContent)) (path : String) (content : FsContent) :
    List (String × FsContent) :=
  (path, content) :: fs.filter (fun e => !(e.1 == path))

/-- `_nativeSaveFile`: skip silently without the Filesystem plugin, else
encode to radix 64 and `writeFile` — whose failure is NOT caught. -/
def nativeSaveFile (env : Env) (st : LibState) (file : StoredFileData) : LRes Unit :=
  if st.hasFilesystem then
    if env.fsWriteFails then (st, .error ())
    else
      ({ st with fsFiles := (fsWrite st.fsFiles (nativeFilePath file.id)
            (FsContent.text (arrayBufferToBase64 file.data))) }, .ok ())
  else (st, .ok ())

/-- Look a path up in the files area. -/
def fsRead (fs : List (String × FsContent)) (path : String) : Option FsContent :=
  (fs.find? (fun e => e.1 == path)).map (fun e => e.2)

/-- `_nativeGetFile`: the MIME type comes from the cached record (or the
default), the bytes from `readFile`, decoded when the host returns text;
every failure is caught and becomes `null`. -/
def nativeGetFile (env : Env) (st : LibState) (bookId : String) :
    Option StoredFileData :=
  if st.hasFilesystem then
    let book := st.books.find? (fun b => b.id == bookId)
    let mime := orDefault (book.bind (fun b => b.fileMimeType)) "application/pdf"
    if env.fsReadFails then none
    else
      match fsRead st.fsFiles (nativeFilePath bookId) with
      | none => none
      | some (FsContent.text s) =>
          some { id := bookId, data := base64ToArrayBuffer s, mimeType := mime }
      | some (FsContent.raw bytes) =>
          some { id := bookId, data := bytes, mimeType := mime }
  else none

/-- `_nativeDeleteFile`: best-effort, every failure swallowed. -/
def nativeDeleteFile (env : Env) (st : LibState) (bookId : String) : LibState :=
  if st.hasFilesystem then
    if env.fsDeleteFails then st
    else { st with fsFiles := (st.fsFiles.filter
        (fun e => !(e.1 == nativeFilePath bookId))) }
  else st

/-- `_localStorageSaveBook`: replace the first cache entry with the id (or
unshift), then best-effort persist the list. -/
def setFirstById : List UserEbook → UserEbook → List UserEbook
  | [], _ => []
  | b :: rest, book =>
      if b.id == book.id then book :: rest else b :: setFirstById rest book

/-- `_localStorageSaveBook`. -/
def localStorageSaveBook (env : Env) (st : LibState) (book : UserEbook) : LibState :=
  let list := st.books
  let newList := if list.any (fun b => b.id == book.id)
    then setFirstById list book
    else book :: list
  localStorageSaveBooks env st newList

/-- IndexedDB `put` (upsert keyed by `id`). -/
def idbPut (store : List UserEbook) (book : UserEbook) : List UserEbook :=
  book :: store.filter (fun b => !(b.id == book.id))

/-- `_idbSaveBook`: without a DB handle fall back to localStorage and
resolve; otherwise `put`, rejecting on failure. -/
def idbSaveBook (env : Env) (st : LibState) (book : UserEbook) : LRes Unit :=
  if st.hasDb then
    if env.idbPutBookFails then (st, .error ())
    else ({ st with idbBooks := idbPut st.idbBooks book }, .ok ())
  else (localStorageSaveBook env st book, .ok ())

/-- `_idbDeleteBook`: resolve without a DB handle; `delete` by id,
rejecting on failure. -/
def idbDeleteBook (env : Env) (st : LibState) (id : String) : LRes Unit :=
  if st.hasDb then
    if env.idbDeleteBookFails then (st, .error ())
    else ({ st with idbBooks := st.idbBooks.filter (fun b => !(b.id == id)) }, .ok ())
  else (st, .ok ())

/-- `_idbSaveFile`: the payload is converted to a plain `number[]`
(`Array.from(new Uint8Array(file.data))`) before `put`; rejects on
failure; resolves without storing when the DB handle is absent. -/
def idbSaveFile (env : Env) (st : LibState) (file : StoredFileData) : LRes Unit :=
  if st.hasDb then
    if env.idbPutFileFails then (st, .error ())
    else
      let safe : IdbFileEntry :=
        { id := file.id, data := IdbFileContent.numArray file.data,
          mimeType := file.mimeType }
      ({ st with idbFiles := (safe :: st.idbFiles.filter
          (fun e => !(e.id == file.id))) }, .ok ())
  else (st, .ok ())

/-- `_idbGetFile`: absent entry (or absent DB) is `null`; a found entry's
`data` is normalized by shape — `ArrayBuffer` as-is, `Array` through
`new Uint8Array(...)` (8-bit truncation), anything else force-cast. -/
def idbGetFile (env : Env) (st : LibState) (id : String) :
    Except Unit (Option StoredFileData) :=
  if st.hasDb then
    if env.idbGetFileFails then .error ()
    else
      match st.idbFiles.find? (fun e => e.id == id) with
      | none => .ok none
      | some raw =>
          let data := match raw.data with
            | IdbFileContent.buffer bytes => bytes
            | IdbFileContent.numArray ns => ns.map (· % 256)
            | IdbFileContent.other bytes => bytes
          .ok (some { id := raw.id, data := data, mimeType := raw.mimeType })
  else .ok none

/-- `_idbDeleteFile`: resolve without a DB handle; `delete` by id,
rejecting on failure. -/
def idbDeleteFile (env : Env) (st : LibState) (id : String) : LRes Unit :=
  if st.hasDb then
    if env.idbDeleteFileFails then (st, .error ())
    else ({ st with idbFiles := st.idbFiles.filter (fun e => !(e.id == id)) }, .ok ())
  else (st, .ok ())

/-! ## Routing layer -/

/-- `_saveBook`: on native, rebuild the whole list from the cache
(replace-by-id or prepend) and save it; on web, IndexedDB upsert. -/
def saveBook' (env : Env) (st : LibState) (book : UserEbook) : LRes Unit :=
  if st.isNative then
    let current := st.books
    let updated := if current.any (fun b => b.id == book.id)
      then current.map (fun b => if b.id == book.id then book else b)
      else book :: current
    (nativeSaveBooks env st updated, .ok ())
  else idbSaveBook env st book

/-- `_deleteBook`. -/
def deleteBook' (env : Env) (st : LibState) (id : String) : LRes Unit :=
  if st.isNative then
    (nativeSaveBooks env st (st.books.filter (fun b => !(b.id == id))), .ok ())
  else idbDeleteBook env st id

/-- `_saveFile`. -/
def saveFile' (env : Env) (st : LibState) (file : StoredFileData) : LRes Unit :=
  if st.isNative then nativeSaveFile env st file else idbSaveFile env st file

/-- `_getFile` (read-only, so no state is returned). -/
def getFile' (env : Env) (st : LibState) (id : String) :
    Except Unit (Option StoredFileData) :=
  if st.isNative then .ok (nativeGetFile env st id) else idbGetFile env st id

/-- `_deleteFile`. -/
def deleteFile' (env : Env) (st : LibState) (id : String) : LRes Unit :=
  if st.isNative then (nativeDeleteFile env st id, .ok ()) else idbDeleteFile env st id

/-! ## Facade -/

/-- The record built at the top of `addBook`: generated id
`'book-' + Date.now() + '-' + random-suffix` and today's date-only stamp. -/
def mkBook (meta : BookMeta) (nowMs : Nat) (rand : String) (today : String) :
    UserEbook :=
  { id := "book-" ++ toString nowMs ++ "-" ++ rand
    title := meta.title
    author := meta.author
    description := meta.description
    level := meta.level
    category := meta.category
    coverEmoji := meta.coverEmoji
    coverColor := meta.coverColor
    fileType := meta.fileType
    sourceUrl := meta.sourceUrl
    fileName := meta.fileName
    fileSize := meta.fileSize
    fileMimeType := meta.fileMimeType
    totalPages := meta.totalPages
    language := meta.language
    addedDate := today
    notes := meta.notes }

/-- `await` sequencing of the storage promises: a rejection short-circuits
with the state reached so far, a resolution continues. -/
def bindRes {α β : Type} : LRes α → (LibState → LRes β) → LRes β
  | (st, Except.error e), _ => (st, Except.error e)
  | (st, Except.ok _), f => f st

/-- The conditional payload step of `addBook`:
`if (fileData && book.fileType !== 'URL') await this._saveFile(...)`. -/
def savePayloadStep (env : Env) (st : LibState) (book : UserEbook)
    (fileData : Option (List Nat)) : LRes Unit :=
  match fileData with
  | some data =>
      if book.fileType = BFileType.URL then (st, .ok ())
      else saveFile' env st
        { id := book.id, data := data,
          mimeType := orDefault book.fileMimeType "application/pdf" }
  | none => (st, .ok ())

/-- `addBook`: persist the record; if payload bytes were supplied and the
record is not a bare URL reference, persist the payload; only then prepend
the record to the cache.  A throw anywhere aborts the rest. -/
def addBook (env : Env) (st : LibState) (meta : BookMeta)
    (fileData : Option (List Nat)) (nowMs : Nat) (rand : String) (today : String) :
    LRes UserEbook :=
  let book := mkBook meta nowMs rand today
  bindRes (saveBook' env st book) (fun st1 =>
  bindRes (savePayloadStep env st1 book fileData) (fun st2 =>
    ({ st2 with books := book :: st2.books }, Except.ok book)))

/-- `deleteBook`: remove the record, then the payload, then the cache
entry.  A throw anywhere aborts the rest. -/
def deleteBook (env : Env) (st : LibState) (id : String) : LRes Unit :=
  bindRes (deleteBook' env st id) (fun st1 =>
  bindRes (deleteFile' env st1 id) (fun st2 =>
    ({ st2 with books := st2.books.filter (fun b => !(b.id == id)) }, Except.ok ())))

/-- `updateBook`: no-op when the id is not cached; else spread the patch
over the cached record, persist, then replace it in the cache. -/
def updateBook (env : Env) (st : LibState) (id : String) (updates : EbookPatch) :
    LRes Unit :=
  match st.books.find? (fun b => b.id == id) with
  | none => (st, .ok ())
  | some updated =>
      let newBook := applyPatch updated updates
      bindRes (saveBook' env st newBook) (fun st1 =>
        ({ st1 with books := (st1.books.map
            (fun b => if b.id == id then newBook else b)) }, Except.ok ()))

/-- `_arrayBufferToDataUrl`: `FileReader.readAsDataURL` of a typed blob. -/
def arrayBufferToDataUrl (data : List Nat) (mimeType : String) : String :=
  "data:" ++ mimeType ++ ";base64," ++ (btoa data).asString

/-- `getFileDataUrl`: fetch the payload and render it as a data URI;
`null` on absence and on any caught failure. -/
def getFileDataUrl (env : Env) (st : LibState) (bookId : String) : Option String :=
  match getFile' env st bookId with
  | Except.error _ => none
  | Except.ok none => none
  | Except.ok (some stored) => some (arrayBufferToDataUrl stored.data stored.mimeType)

/-! ## Frame lemmas: which state fields each driver call can touch -/

theorem localStorageSaveBooks_eq (env : Env) (st : LibState) (l : List UserEbook) :
    ∃ lb, localStorageSaveBooks env st l = { st with localBooks := lb } := by
  unfold localStorageSaveBooks
  split
  · exact ⟨st.localBooks, rfl⟩
  · exact ⟨some l, rfl⟩

theorem nativeSaveBooks_eq (env : Env) (st : LibState) (l : List UserEbook) :
    ∃ pb lb, nativeSaveBooks env st l = { st with prefBooks := pb, localBooks := lb } := by
  unfold nativeSaveBooks
  split
  · split
    · obtain ⟨lb, h⟩ := localStorageSaveBooks_eq env st l
      exact ⟨st.prefBooks, lb, h⟩
    · exact ⟨some l, st.localBooks, rfl⟩
  · obtain ⟨lb, h⟩ := localStorageSaveBooks_eq env st l
    exact ⟨st.prefBooks, lb, h⟩

theorem localStorageSaveBook_eq (env : Env) (st : LibState) (b : UserEbook) :
    ∃ lb, localStorageSaveBook env st b = { st with localBooks := lb } := by
  unfold localStorageSaveBook
  exact localStorageSaveBooks_eq env st _

theorem idbSaveBook_eq (env : Env) (st : LibState) (b : UserEbook) :
    ∃ ib lb, (idbSaveBook env st b).1 = { st with idbBooks := ib, localBooks := lb } := by
  unfold idbSaveBook
  split
  · split
    · exact ⟨st.idbBooks, st.localBooks, rfl⟩
    · exact ⟨idbPut st.idbBooks b, st.localBooks, rfl⟩
  · obtain ⟨lb, h⟩ := localStorageSaveBook_eq env st b
    exact ⟨st.idbBooks, lb, by simpa using h⟩

theorem saveBook'_eq (env : Env) (st : LibState) (b : UserEbook) :
    ∃ pb ib lb, (saveBook' env st b).1 =
      { st with prefBooks := pb, idbBooks := ib, localBooks := lb } := by
  unfold saveBook'
  split
  · obtain ⟨pb, lb, h⟩ := nativeSaveBooks_eq env st _
    exact ⟨pb, st.idbBooks, lb, by simpa using h⟩
  · obtain ⟨ib, lb, h⟩ := idbSaveBook_eq env st b
    exact ⟨st.prefBooks, ib, lb, by simpa using h⟩

theorem idbDeleteBook_eq (env : Env) (st : LibState) (id : String) :
    ∃ ib, (idbDeleteBook env st id).1 = { st with idbBooks := ib } := by
  unfold idbDeleteBook
  split
  · split
    · exact ⟨st.idbBooks, rfl⟩
    · exact ⟨_, rfl⟩
  · exact ⟨st.idbBooks, rfl⟩

theorem deleteBook'_eq (env : Env) (st : LibState) (id : String) :
    ∃ pb ib lb, (deleteBook' env st id).1 =
      { st with prefBooks := pb, idbBooks := ib, localBooks := lb } := by
  unfold deleteBook'
  split
  · obtain ⟨pb, lb, h⟩ := nativeSaveBooks_eq env st _
    exact ⟨pb, st.idbBooks, lb, by simpa using h⟩
  · obtain ⟨ib, h⟩ := idbDeleteBook_eq env st id
    exact ⟨st.prefBooks, ib, st.localBooks, by simpa using h⟩

theorem nativeSaveFile_eq (env : Env) (st : LibState) (f : StoredFileData) :
    ∃ fs, (nativeSaveFile env st f).1 = { st with fsFiles := fs } := by
  unfold nativeSaveFile
  split
  · split
    · exact ⟨st.fsFiles, rfl⟩
    · exact ⟨_, rfl⟩
  · exact ⟨st.fsFiles, rfl⟩

theorem idbSaveFile_eq (env : Env) (st : LibState) (f : StoredFileData) :
    ∃ ifs, (idbSaveFile env st f).1 = { st with idbFiles := ifs } := by
  unfold idbSaveFile
  split
  · split
    · exact ⟨st.idbFiles, rfl⟩
    · exact ⟨_, rfl⟩
  · exact ⟨st.idbFiles, rfl⟩

theorem saveFile'_eq (env : Env) (st : LibState) (f : StoredFileData) :
    ∃ fs ifs, (saveFile' env st f).1 = { st with fsFiles := fs, idbFiles := ifs } := by
  unfold saveFile'
  split
  · obtain ⟨fs, h⟩ := nativeSaveFile_eq env st f
    exact ⟨fs, st.idbFiles, by simpa using h⟩
  · obtain ⟨ifs, h⟩ := idbSaveFile_eq env st f
    exact ⟨st.fsFiles, ifs, by simpa using h⟩

theorem nativeDeleteFile_eq (env : Env) (st : LibState) (id : String) :
    ∃ fs, nativeDeleteFile env st id = { st with fsFiles := fs } := by
  unfold nativeDeleteFile
  split
  · split
    · exact ⟨st.fsFiles, rfl⟩
    · exact ⟨_, rfl⟩
  · exact ⟨st.fsFiles, rfl⟩

theorem idbDeleteFile_eq (env : Env) (st : LibState) (id : String) :
    ∃ ifs, (idbDeleteFile env st id).1 = { st with idbFiles := ifs } := by
  unfold idbDeleteFile
  split
  · split
    · exact ⟨st.idbFiles, rfl⟩
    · exact ⟨_, rfl⟩
  · exact ⟨st.idbFiles, rfl⟩

theorem deleteFile'_eq (env : Env) (st : LibState) (id : String) :
    ∃ fs ifs, (deleteFile' env st id).1 = { st with fsFiles := fs, idbFiles := ifs } := by
  unfold deleteFile'
  split
  · obtain ⟨fs, h⟩ := nativeDeleteFile_eq env st id
    exact ⟨fs, st.idbFiles, by simpa using h⟩
  · obtain ⟨ifs, h⟩ := idbDeleteFile_eq env st id
    exact ⟨st.fsFiles, ifs, by simpa using h⟩

theorem savePayloadStep_eq (env : Env) (st : LibState) (book : UserEbook)
    (fd : Option (List Nat)) :
    ∃ fs ifs, (savePayloadStep env st book fd).1 =
      { st with fsFiles := fs, idbFiles := ifs } := by
  cases fd with
  | none => exact ⟨st.fsFiles, st.idbFiles, rfl⟩
  | some d =>
      unfold savePayloadStep
      dsimp only
      rcases eq_or_ne book.fileType BFileType.URL with hc | hc
      · rw [if_pos hc]
        exact ⟨st.fsFiles, st.idbFiles, rfl⟩
      · rw [if_neg hc]
        exact saveFile'_eq env st _

/-! ## Facade-level outcome lemmas -/

theorem bindRes_error {α β : Type} (s : LibState) (f : LibState → LRes β) :
    bindRes (α := α) (s, Except.error ()) f = (s, Except.error ()) := rfl

theorem bindRes_ok {α β : Type} (s : LibState) (a : α) (f : LibState → LRes β) :
    bindRes (s, Except.ok a) f = f s := rfl

theorem addBook_cases (env : Env) (st : LibState) (meta : BookMeta)
    (fd : Option (List Nat)) (nowMs : Nat) (rand : String) (today : String) :
    ((addBook env st meta fd nowMs rand today).2 = Except.error () ∧
     (addBook env st meta fd nowMs rand today).1.books = st.books) ∨
    ((addBook env st meta fd nowMs rand today).2 =
        Except.ok (mkBook meta nowMs rand today) ∧
     (addBook env st meta fd nowMs rand today).1.books =
        mkBook meta nowMs rand today :: st.books) := by
  obtain ⟨pb, ib, lb, hb⟩ := saveBook'_eq env st (mkBook meta nowMs rand today)
  unfold addBook
  dsimp only
  rcases hs : saveBook' env st (mkBook meta nowMs rand today) with ⟨st1, e1⟩
  rw [hs] at hb
  dsimp only at hb
  cases e1 with
  | error e =>
      cases e
      rw [bindRes_error]
      exact Or.inl ⟨rfl, by rw [hb]⟩
  | ok u =>
      rw [bindRes_ok]
      obtain ⟨fs, ifs, hp1⟩ :=
        savePayloadStep_eq env st1 (mkBook meta nowMs rand today) fd
      rcases hp : savePayloadStep env st1 (mkBook meta nowMs rand today) fd with ⟨st2, e2⟩
      rw [hp] at hp1
      dsimp only at hp1
      cases e2 with
      | error e =>
          cases e
          rw [bindRes_error]
          exact Or.inl ⟨rfl, by rw [hp1, hb]⟩
      | ok v =>
          rw [bindRes_ok]
          exact Or.inr ⟨rfl, by dsimp only; rw [hp1, hb]⟩

theorem deleteBook_cases (env : Env) (st : LibState) (id : String) :
    ((deleteBook env st id).2 = Except.error () ∧
     (deleteBook env st id).1.books = st.books) ∨
    ((deleteBook env st id).2 = Except.ok () ∧
     (deleteBook env st id).1.books = st.books.filter (fun b => !(b.id == id))) := by
  obtain ⟨pb, ib, lb, hb⟩ := deleteBook'_eq env st id
  unfold deleteBook
  rcases hs : deleteBook' env st id with ⟨st1, e1⟩
  rw [hs] at hb
  dsimp only at hb
  cases e1 with
  | error e =>
      cases e
      rw [bindRes_error]
      exact Or.inl ⟨rfl, by rw [hb]⟩
  | ok u =>
      rw [bindRes_ok]
      obtain ⟨fs, ifs, hp1⟩ := deleteFile'_eq env st1 id
      rcases hp : deleteFile' env st1 id with ⟨st2, e2⟩
      rw [hp] at hp1
      dsimp only at hp1
      cases e2 with
      | error e =>
          cases e
          rw [bindRes_error]
          exact Or.inl ⟨rfl, by rw [hp1, hb]⟩
      | ok v =>
          rw [bindRes_ok]
          exact Or.inr ⟨rfl, by dsimp only; rw [hp1, hb]⟩

theorem updateBook_cases (env : Env) (st : LibState) (id : String)
    (updates : EbookPatch) :
    ((updateBook env st id updates).2 = Except.error () ∧
     (updateBook env st id updates).1.books = st.books) ∨
    ((updateBook env st id updates).2 = Except.ok () ∧
     ((updateBook env st id updates).1.books = st.books ∨
      ∃ updated, st.books.find? (fun b => b.id == id) = some updated ∧
        (updateBook env st id updates).1.books =
          st.books.map (fun b => if b.id == id then applyPatch updated updates else b))) := by
  unfold updateBook
  rcases hf : st.books.find? (fun b => b.id == id) with _ | updated
  · rw [hf]
    exact Or.inr ⟨rfl, Or.inl rfl⟩
  · rw [hf]
    dsimp only
    obtain ⟨pb, ib, lb, hb⟩ := saveBook'_eq env st (applyPatch updated updates)
    rcases hs : saveBook' env st (applyPatch updated updates) with ⟨st1, e1⟩
    rw [hs] at hb
    dsimp only at hb
    cases e1 with
    | error e =>
        cases e
        rw [bindRes_error]
        exact Or.inl ⟨rfl, by rw [hb]⟩
    | ok u =>
        rw [bindRes_ok]
        refine Or.inr ⟨rfl, Or.inr ⟨updated, rfl, ?_⟩⟩
        dsimp only
        rw [hb]

/-! ## splitComma lemmas (for the data-URI head stripping of the decoder) -/

theorem splitComma_ne_nil (l : List Char) : splitComma l ≠ [] := by
  cases l with
  | nil => simp [splitComma]
  | cons c rest =>
      rw [splitComma]
      rcases splitComma rest with _ | ⟨a, b⟩
      · dsimp only
        split <;> simp
      · dsimp only
        split <;> simp

theorem splitComma_no_comma (q : List Char) (hq : ',' ∉ q) : splitComma q = [q] := by
  induction q with
  | nil => rfl
  | cons c cs ih =>
      have hc : c ≠ ',' := fun h => hq (by simp [h])
      have hcs : ',' ∉ cs := fun h => hq (List.mem_cons_of_mem _ h)
      rw [splitComma, ih hcs]
      dsimp only
      rw [if_neg hc]

theorem splitComma_append (p rest : List Char) (hp : ',' ∉ p) :
    splitComma (p ++ ',' :: rest) = p :: splitComma rest := by
  induction p with
  | nil =>
      dsimp only [List.nil_append]
      rw [splitComma]
      rcases h : splitComma rest with _ | ⟨a, b⟩
      · exact absurd h (splitComma_ne_nil rest)
      · dsimp only
        rw [if_pos rfl]
  | cons c cs ih =>
      have hc : c ≠ ',' := fun h => hp (by simp [h])
      have hcs : ',' ∉ cs := fun h => hp (List.mem_cons_of_mem _ h)
      rw [List.cons_append, splitComma, ih hcs]
      dsimp only
      rw [if_neg hc]

theorem b64Operand_uri (p q : List Char) (hp : ',' ∉ p) (hq : ',' ∉ q) :
    b64Operand (p ++ ',' :: q) = q := by
  unfold b64Operand
  rw [if_pos (show ',' ∈ p ++ ',' :: q by simp)]
  rw [splitComma_append p q hp, splitComma_no_comma q hq]
  rfl

theorem b64Operand_uri2 (p q r : List Char) (hp : ',' ∉ p) (hq : ',' ∉ q) :
    b64Operand (p ++ ',' :: q ++ ',' :: r) = q := by
  unfold b64Operand
  rw [List.append_assoc, List.cons_append]
  rw [if_pos (show ',' ∈ p ++ ',' :: (q ++ ',' :: r) by simp)]
  rw [splitComma_append p _ hp, splitComma_append q r hq]
  rfl

/-! ## Concrete fixtures shared by the witnesses and counterexamples -/

/-- A web-tier state with a live IndexedDB handle and empty stores. -/
def webSt : LibState :=
  { books := [], isNative := false, hasPreferences := false, hasFilesystem := false,
    hasDb := true, prefBooks := none, fsFiles := [], idbBooks := [], idbFiles := [],
    localBooks := none }

/-- A native-tier state with Preferences available and no Filesystem. -/
def natSt : LibState :=
  { books := [], isNative := true, hasPreferences := true, hasFilesystem := false,
    hasDb := false, prefBooks := some [], fsFiles := [], idbBooks := [], idbFiles := [],
    localBooks := none }

/-- Caller-side metadata of a PDF record. -/
def sampleMeta : BookMeta :=
  { title := "T", author := "A", description := "d", level := BLevel.N5,
    category := "grammar", coverEmoji := "B", coverColor := "#fff",
    fileType := BFileType.PDF, sourceUrl := none, fileName := none, fileSize := none,
    fileMimeType := none, totalPages := none, language := BLanguage.JA, notes := none }

/-! ## Claim C1 -/

/-- C1: the binary codec round-trips: for every byte sequence (any length,
any byte values, valid UTF-8 or not), `_base64ToArrayBuffer` applied to the
chunked `_arrayBufferToBase64` encoding returns exactly the input bytes. -/
theorem C1_codec_round_trip (bytes : List Nat) (h : ∀ b ∈ bytes, b < 256) :
    base64ToArrayBuffer (arrayBufferToBase64 bytes) = bytes :=
  roundTrip bytes h

theorem C1_codec_round_trip_witness :
    (∀ b ∈ [37, 80, 68, 70, 0, 255], b < 256) ∧
      base64ToArrayBuffer (arrayBufferToBase64 [37, 80, 68, 70, 0, 255]) =
        [37, 80, 68, 70, 0, 255] :=
  ⟨by decide, C1_codec_round_trip [37, 80, 68, 70, 0, 255] (by decide)⟩

/-! ## Claim C9 -/

/-- C9 as stated is false at `"p,QUJD,RUZH"`: `base64.split(',')[1]` keeps
only the segment between the first and the second comma (`"QUJD"`), not
everything after the first comma (`"QUJD,RUZH"`). -/
theorem C9_decoder_operand_cex :
    b64Operand ("p,QUJD,RUZH".toList) = "QUJD".toList ∧
    b64Operand ("p,QUJD,RUZH".toList) ≠ "QUJD,RUZH".toList ∧
    base64ToArrayBuffer ("p,QUJD,RUZH".toList) = [65, 66, 67] := by
  refine ⟨by decide, by decide, by decide⟩

/-- C9 amended: the decoder tolerates a URI-prefixed input by decoding the
segment strictly between the first and the second comma (the whole
remainder when there is no second comma), and a comma-free input whole. -/
theorem C9_decoder_operand_amended (p q : List Char) (hp : ',' ∉ p) (hq : ',' ∉ q) :
    base64ToArrayBuffer (p ++ ',' :: q) = base64ToArrayBuffer q ∧
    (∀ r : List Char,
      base64ToArrayBuffer (p ++ ',' :: q ++ ',' :: r) = base64ToArrayBuffer q) ∧
    b64Operand q = q := by
  have hqq : b64Operand q = q := b64Operand_of_no_comma hq
  refine ⟨?_, ?_, hqq⟩
  · unfold base64ToArrayBuffer
    rw [b64Operand_uri p q hp hq, hqq]
  · intro r
    unfold base64ToArrayBuffer
    rw [b64Operand_uri2 p q r hp hq, hqq]

theorem C9_decoder_operand_amended_witness :
    (',' ∉ "data:application/pdf;base64".toList) ∧ (',' ∉ "QUJD".toList) ∧
      base64ToArrayBuffer ("data:application/pdf;base64".toList ++ ',' :: "QUJD".toList) =
        base64ToArrayBuffer ("QUJD".toList) :=
  ⟨by decide, by decide,
    (C9_decoder_operand_amended "data:application/pdf;base64".toList "QUJD".toList
      (by decide) (by decide)).1⟩

/-! ## Claim C2 -/

theorem bindRes_of_ok {α β : Type} (r : LRes α) (f : LibState → LRes β) (a : α)
    (h : r.2 = Except.ok a) : bindRes r f = f r.1 := by
  rcases r with ⟨s, e⟩
  dsimp only at h
  subst h
  rfl

theorem bindRes_of_error {α β : Type} (r : LRes α) (f : LibState → LRes β)
    (h : r.2 = Except.error ()) : bindRes r f = (r.1, Except.error ()) := by
  rcases r with ⟨s, e⟩
  dsimp only at h
  subst h
  rfl

/-- C2: whenever the record-persistence step inside `addBook` rejects, the
call rejects and the in-memory cache afterwards equals the cache before the
call — the new record is never prepended. -/
theorem C2_cache_not_updated_on_persist_failure (env : Env) (st : LibState)
    (meta : BookMeta) (fd : Option (List Nat)) (nowMs : Nat) (rand today : String)
    (h : (saveBook' env st (mkBook meta nowMs rand today)).2 = Except.error ()) :
    (addBook env st meta fd nowMs rand today).1.books = st.books ∧
    (addBook env st meta fd nowMs rand today).2 = Except.error () := by
  obtain ⟨pb, ib, lb, hb⟩ := saveBook'_eq env st (mkBook meta nowMs rand today)
  unfold addBook
  dsimp only
  rw [bindRes_of_error _ _ h]
  exact ⟨by rw [hb], rfl⟩

/-- Fault switch making the IndexedDB record `put` reject. -/
def envPutBookFail : Env := { idbPutBookFails := true }

theorem C2_cache_not_updated_on_persist_failure_witness :
    (saveBook' envPutBookFail webSt (mkBook sampleMeta 5 "r" "2024-05-01")).2 =
        Except.error () ∧
      (addBook envPutBookFail webSt sampleMeta none 5 "r" "2024-05-01").1.books =
        webSt.books ∧
      (addBook envPutBookFail webSt sampleMeta none 5 "r" "2024-05-01").2 =
        Except.error () :=
  ⟨rfl,
    (C2_cache_not_updated_on_persist_failure envPutBookFail webSt sampleMeta none
      5 "r" "2024-05-01" rfl).1,
    (C2_cache_not_updated_on_persist_failure envPutBookFail webSt sampleMeta none
      5 "r" "2024-05-01" rfl).2⟩

/-! ## Claim C3 -/

theorem saveBook'_native_ok (env : Env) (st : LibState) (b : UserEbook)
    (h : st.isNative = true) : (saveBook' env st b).2 = Except.ok () := by
  simp [saveBook', h]

theorem saveBook'_web_ok (env : Env) (st : LibState) (b : UserEbook)
    (h : st.isNative = false) (hdb : st.hasDb = true)
    (hpb : env.idbPutBookFails = false) : (saveBook' env st b).2 = Except.ok () := by
  simp [saveBook', idbSaveBook, h, hdb, hpb]

theorem saveFile'_skip (env : Env) (st : LibState) (f : StoredFileData)
    (h : st.isNative = true) (hfs : st.hasFilesystem = false) :
    saveFile' env st f = (st, Except.ok ()) := by
  simp [saveFile', nativeSaveFile, h, hfs]

theorem deleteBook'_native_ok (env : Env) (st : LibState) (id : String)
    (h : st.isNative = true) : (deleteBook' env st id).2 = Except.ok () := by
  simp [deleteBook', h]

theorem deleteFile'_native_ok (env : Env) (st : LibState) (id : String)
    (h : st.isNative = true) : (deleteFile' env st id).2 = Except.ok () := by
  simp [deleteFile', h]

/-- In the native tier `deleteBook` never rejects: both the record rewrite
and the payload delete swallow their failures. -/
theorem deleteBook_native_resolves (env : Env) (st : LibState) (id : String)
    (h : st.isNative = true) : (deleteBook env st id).2 = Except.ok () := by
  unfold deleteBook
  rw [bindRes_of_ok _ _ () (deleteBook'_native_ok env st id h)]
  obtain ⟨pb, ib, lb, hb⟩ := deleteBook'_eq env st id
  have h1 : (deleteBook' env st id).1.isNative = true := by rw [hb]; exact h
  rw [bindRes_of_ok _ _ () (deleteFile'_native_ok env _ id h1)]

/-- In the native tier with the Filesystem plugin missing, `addBook` with
payload bytes resolves: the payload save is silently skipped. -/
theorem addBook_native_no_fs_resolves (env : Env) (st : LibState) (meta : BookMeta)
    (d : List Nat) (nowMs : Nat) (rand today : String)
    (h : st.isNative = true) (hfs : st.hasFilesystem = false) :
    (addBook env st meta (some d) nowMs rand today).2 =
      Except.ok (mkBook meta nowMs rand today) := by
  unfold addBook
  dsimp only
  rw [bindRes_of_ok _ _ () (saveBook'_native_ok env st _ h)]
  obtain ⟨pb, ib, lb, hb⟩ := saveBook'_eq env st (mkBook meta nowMs rand today)
  have h1 : (saveBook' env st (mkBook meta nowMs rand today)).1.isNative = true := by
    rw [hb]; exact h
  have h2 : (saveBook' env st (mkBook meta nowMs rand today)).1.hasFilesystem = false := by
    rw [hb]; exact hfs
  have hstep : (savePayloadStep env (saveBook' env st (mkBook meta nowMs rand today)).1
      (mkBook meta nowMs rand today) (some d)).2 = Except.ok () := by
    unfold savePayloadStep
    dsimp only
    rcases eq_or_ne (mkBook meta nowMs rand today).fileType BFileType.URL with hc | hc
    · rw [if_pos hc]
    · rw [if_neg hc, saveFile'_skip _ _ _ h1 h2]
  rw [bindRes_of_ok _ _ () hstep]

/-- In the native tier with the Filesystem plugin present, a failing
`writeFile` makes `addBook` reject: the payload-save failure propagates. -/
theorem addBook_native_write_fail_rejects (env : Env) (st : LibState) (meta : BookMeta)
    (d : List Nat) (nowMs : Nat) (rand today : String)
    (h : st.isNative = true) (hfs : st.hasFilesystem = true)
    (hw : env.fsWriteFails = true) (hurl : meta.fileType ≠ BFileType.URL) :
    (addBook env st meta (some d) nowMs rand today).2 = Except.error () := by
  unfold addBook
  dsimp only
  rw [bindRes_of_ok _ _ () (saveBook'_native_ok env st _ h)]
  obtain ⟨pb, ib, lb, hb⟩ := saveBook'_eq env st (mkBook meta nowMs rand today)
  have h1 : (saveBook' env st (mkBook meta nowMs rand today)).1.isNative = true := by
    rw [hb]; exact h
  have h2 : (saveBook' env st (mkBook meta nowMs rand today)).1.hasFilesystem = true := by
    rw [hb]; exact hfs
  have hstep : (savePayloadStep env (saveBook' env st (mkBook meta nowMs rand today)).1
      (mkBook meta nowMs rand today) (some d)).2 = Except.error () := by
    unfold savePayloadStep
    dsimp only
    rw [if_neg (show (mkBook meta nowMs rand today).fileType ≠ BFileType.URL from hurl)]
    unfold saveFile' nativeSaveFile
    rw [h1, if_pos rfl, h2, if_pos rfl, hw, if_pos rfl]
  rw [bindRes_of_error _ _ hstep]

/-- In the web tier, a rejecting payload `put` makes `addBook` reject. -/
theorem addBook_web_put_file_fail_rejects (env : Env) (st : LibState) (meta : BookMeta)
    (d : List Nat) (nowMs : Nat) (rand today : String)
    (h : st.isNative = false) (hdb : st.hasDb = true)
    (hpb : env.idbPutBookFails = false) (hpf : env.idbPutFileFails = true)
    (hurl : meta.fileType ≠ BFileType.URL) :
    (addBook env st meta (some d) nowMs rand today).2 = Except.error () := by
  unfold addBook
  dsimp only
  rw [bindRes_of_ok _ _ () (saveBook'_web_ok env st _ h hdb hpb)]
  obtain ⟨pb, ib, lb, hb⟩ := saveBook'_eq env st (mkBook meta nowMs rand today)
  have h1 : (saveBook' env st (mkBook meta nowMs rand today)).1.isNative = false := by
    rw [hb]; exact h
  have h2 : (saveBook' env st (mkBook meta nowMs rand today)).1.hasDb = true := by
    rw [hb]; exact hdb
  have hstep : (savePayloadStep env (saveBook' env st (mkBook meta nowMs rand today)).1
      (mkBook meta nowMs rand today) (some d)).2 = Except.error () := by
    unfold savePayloadStep
    dsimp only
    rw [if_neg (show (mkBook meta nowMs rand today).fileType ≠ BFileType.URL from hurl)]
    unfold saveFile' idbSaveFile
    rw [h1, if_neg (by simp), h2, if_pos rfl, hpf, if_pos rfl]
  rw [bindRes_of_error _ _ hstep]

/-- In the web tier, a rejecting payload `delete` makes `deleteBook` reject. -/
theorem deleteBook_web_delete_file_fail_rejects (env : Env) (st : LibState)
    (id : String) (h : st.isNative = false) (hdb : st.hasDb = true)
    (hdbk : env.idbDeleteBookFails = false) (hdf : env.idbDeleteFileFails = true) :
    (deleteBook env st id).2 = Except.error () := by
  unfold deleteBook
  have hok : (deleteBook' env st id).2 = Except.ok () := by
    simp [deleteBook', idbDeleteBook, h, hdb, hdbk]
  rw [bindRes_of_ok _ _ () hok]
  obtain ⟨pb, ib, lb, hb⟩ := deleteBook'_eq env st id
  have h1 : (deleteBook' env st id).1.isNative = false := by rw [hb]; exact h
  have h2 : (deleteBook' env st id).1.hasDb = true := by rw [hb]; exact hdb
  have hstep : (deleteFile' env (deleteBook' env st id).1 id).2 = Except.error () := by
    unfold deleteFile' idbDeleteFile
    rw [h1, if_neg (by simp), h2, if_pos rfl, hdf, if_pos rfl]
  rw [bindRes_of_error _ _ hstep]

/-- C3 as stated is false: with a live IndexedDB handle whose payload `put`
rejects, `addBook` itself rejects — the payload-save failure is not caught
at the facade/driver boundary. -/
theorem C3_payload_failure_propagates_cex :
    (addBook { idbPutFileFails := true } webSt sampleMeta (some [1, 2, 3]) 5 "r"
      "2024-05-01").2 = Except.error () := rfl

/-- C3 amended: only the native payload delete swallows its failure (and a
native payload save with the plugin missing is silently skipped); an
underlying payload write failure during `addBook` (either tier), and a
payload delete failure during `deleteBook` in the transactional tier,
propagate to the caller. -/
theorem C3_payload_failure_handling_amended :
    (∀ env st id, st.isNative = true → (deleteBook env st id).2 = Except.ok ()) ∧
    (∀ env st meta d nowMs rand (today : String), st.isNative = true →
      st.hasFilesystem = false →
      (addBook env st meta (some d) nowMs rand today).2 =
        Except.ok (mkBook meta nowMs rand today)) ∧
    (∀ env st meta d nowMs rand (today : String), st.isNative = true →
      st.hasFilesystem = true → env.fsWriteFails = true →
      meta.fileType ≠ BFileType.URL →
      (addBook env st meta (some d) nowMs rand today).2 = Except.error ()) ∧
    (∀ env st meta d nowMs rand (today : String), st.isNative = false →
      st.hasDb = true → env.idbPutBookFails = false → env.idbPutFileFails = true →
      meta.fileType ≠ BFileType.URL →
      (addBook env st meta (some d) nowMs rand today).2 = Except.error ()) ∧
    (∀ env st id, st.isNative = false → st.hasDb = true →
      env.idbDeleteBookFails = false → env.idbDeleteFileFails = true →
      (deleteBook env st id).2 = Except.error ()) :=
  ⟨fun env st id h => deleteBook_native_resolves env st id h,
   fun env st meta d nowMs rand today h hfs =>
     addBook_native_no_fs_resolves env st meta d nowMs rand today h hfs,
   fun env st meta d nowMs rand today h hfs hw hurl =>
     addBook_native_write_fail_rejects env st meta d nowMs rand today h hfs hw hurl,
   fun env st meta d nowMs rand today h hdb hpb hpf hurl =>
     addBook_web_put_file_fail_rejects env st meta d nowMs rand today h hdb hpb hpf hurl,
   fun env st id h hdb hdbk hdf =>
     deleteBook_web_delete_file_fail_rejects env st id h hdb hdbk hdf⟩

/-- A native-tier state with both Preferences and Filesystem available. -/
def natFsSt : LibState :=
  { books := [], isNative := true, hasPreferences := true, hasFilesystem := true,
    hasDb := false, prefBooks := some [], fsFiles := [], idbBooks := [], idbFiles := [],
    localBooks := none }

theorem C3_payload_failure_handling_amended_witness :
    (deleteBook {} natSt "x").2 = Except.ok () ∧
    (addBook {} natSt sampleMeta (some [1]) 5 "r" "2024-05-01").2 =
      Except.ok (mkBook sampleMeta 5 "r" "2024-05-01") ∧
    (addBook { fsWriteFails := true } natFsSt sampleMeta (some [1]) 5 "r"
      "2024-05-01").2 = Except.error () ∧
    (addBook { idbPutFileFails := true } webSt sampleMeta (some [1]) 5 "r"
      "2024-05-01").2 = Except.error () ∧
    (deleteBook { idbDeleteFileFails := true } webSt "x").2 = Except.error () :=
  ⟨C3_payload_failure_handling_amended.1 {} natSt "x" rfl,
   C3_payload_failure_handling_amended.2.1 {} natSt sampleMeta [1] 5 "r"
     "2024-05-01" rfl rfl,
   C3_payload_failure_handling_amended.2.2.1 { fsWriteFails := true } natFsSt
     sampleMeta [1] 5 "r" "2024-05-01" rfl rfl rfl (by decide),
   C3_payload_failure_handling_amended.2.2.2.1 { idbPutFileFails := true } webSt
     sampleMeta [1] 5 "r" "2024-05-01" rfl rfl rfl rfl (by decide),
   C3_payload_failure_handling_amended.2.2.2.2 { idbDeleteFileFails := true } webSt
     "x" rfl rfl rfl rfl⟩

/-! ## Claim C6 -/

/-- When no payload bytes are supplied, or the record is a bare URL
reference, `addBook` leaves both payload stores alone (its state change is
confined to the cache and the record stores). -/
theorem addBook_noPayload_state (env : Env) (st : LibState) (meta : BookMeta)
    (fd : Option (List Nat)) (nowMs : Nat) (rand today : String)
    (hfd : fd = none ∨ meta.fileType = BFileType.URL) :
    ∃ bk pb ib lb, (addBook env st meta fd nowMs rand today).1 =
      { st with books := bk, prefBooks := pb, idbBooks := ib, localBooks := lb } := by
  obtain ⟨pb, ib, lb, hb⟩ := saveBook'_eq env st (mkBook meta nowMs rand today)
  unfold addBook
  dsimp only
  have hstep : savePayloadStep env (saveBook' env st (mkBook meta nowMs rand today)).1
      (mkBook meta nowMs rand today) fd =
      ((saveBook' env st (mkBook meta nowMs rand today)).1, Except.ok ()) := by
    rcases hfd with rfl | hurl
    · rfl
    · cases fd with
      | none => rfl
      | some d =>
          unfold savePayloadStep
          dsimp only
          rw [if_pos (show (mkBook meta nowMs rand today).fileType = BFileType.URL from hurl)]
  rcases hs2 : (saveBook' env st (mkBook meta nowMs rand today)).2 with e | u
  · cases e
    rw [bindRes_of_error _ _ hs2]
    exact ⟨st.books, pb, ib, lb, by rw [hb]⟩
  · rw [bindRes_of_ok _ _ u hs2]
    rw [hstep, bindRes_ok]
    exact ⟨mkBook meta nowMs rand today :: st.books, pb, ib, lb, by dsimp only; rw [hb]⟩

/-- `getFileDataUrl` yields `null` when neither payload store holds an
entry for the id, in either tier, under any fault switches. -/
theorem getFileDataUrl_none_of_absent (env2 : Env) (st : LibState) (bid : String)
    (hfs : st.fsFiles.all (fun e => !(e.1 == nativeFilePath bid)) = true)
    (hidb : st.idbFiles.all (fun e => !(e.id == bid)) = true) :
    getFileDataUrl env2 st bid = none := by
  unfold getFileDataUrl getFile'
  by_cases hn : st.isNative = true
  · rw [if_pos hn]
    have hng : nativeGetFile env2 st bid = none := by
      unfold nativeGetFile
      by_cases hf : st.hasFilesystem = true
      · rw [if_pos hf]
        dsimp only
        by_cases hr : env2.fsReadFails = true
        · rw [if_pos hr]
        · rw [if_neg hr]
          have hnone : fsRead st.fsFiles (nativeFilePath bid) = none := by
            unfold fsRead
            rw [List.find?_eq_none.mpr ?_]
            · rfl
            · intro x hx
              have hx2 := List.all_eq_true.mp hfs x hx
              simpa using hx2
          rw [hnone]
      · rw [if_neg hf]
    rw [hng]
  · rw [if_neg hn]
    unfold idbGetFile
    by_cases hdb : st.hasDb = true
    · rw [if_pos hdb]
      by_cases hg : env2.idbGetFileFails = true
      · rw [if_pos hg]
      · rw [if_neg hg]
        have hnone : st.idbFiles.find? (fun e => e.id == bid) = none := by
          rw [List.find?_eq_none]
          intro x hx
          have hx2 := List.all_eq_true.mp hidb x hx
          simpa using hx2
        rw [hnone]
    · rw [if_neg hdb]

/-- In the web tier with a live DB and no faults, `addBook` with payload
bytes on a non-URL record stores the payload entry in the `files` store. -/
theorem addBook_web_stores_payload (env : Env) (st : LibState) (meta : BookMeta)
    (d : List Nat) (nowMs : Nat) (rand today : String)
    (h : st.isNative = false) (hdb : st.hasDb = true)
    (hpb : env.idbPutBookFails = false) (hpf : env.idbPutFileFails = false)
    (hurl : meta.fileType ≠ BFileType.URL) :
    ∃ rest, (addBook env st meta (some d) nowMs rand today).1.idbFiles =
      { id := (mkBook meta nowMs rand today).id, data := IdbFileContent.numArray d,
        mimeType := orDefault meta.fileMimeType "application/pdf" } :: rest := by
  unfold addBook
  dsimp only
  rw [bindRes_of_ok _ _ () (saveBook'_web_ok env st _ h hdb hpb)]
  obtain ⟨pb, ib, lb, hb⟩ := saveBook'_eq env st (mkBook meta nowMs rand today)
  have h1 : (saveBook' env st (mkBook meta nowMs rand today)).1.isNative = false := by
    rw [hb]; exact h
  have h2 : (saveBook' env st (mkBook meta nowMs rand today)).1.hasDb = true := by
    rw [hb]; exact hdb
  have hstep2 : (savePayloadStep env (saveBook' env st (mkBook meta nowMs rand today)).1
      (mkBook meta nowMs rand today) (some d)).2 = Except.ok () := by
    unfold savePayloadStep
    dsimp only
    rw [if_neg (show (mkBook meta nowMs rand today).fileType ≠ BFileType.URL from hurl)]
    unfold saveFile' idbSaveFile
    rw [h1, if_neg (by simp), h2, if_pos rfl, hpf, if_neg (by simp)]
  have hstepf : (savePayloadStep env (saveBook' env st (mkBook meta nowMs rand today)).1
      (mkBook meta nowMs rand today) (some d)).1.idbFiles =
      { id := (mkBook meta nowMs rand today).id, data := IdbFileContent.numArray d,
        mimeType := orDefault meta.fileMimeType "application/pdf" } ::
      (saveBook' env st (mkBook meta nowMs rand today)).1.idbFiles.filter
        (fun e => !(e.id == (mkBook meta nowMs rand today).id)) := by
    unfold savePayloadStep
    dsimp only
    rw [if_neg (show (mkBook meta nowMs rand today).fileType ≠ BFileType.URL from hurl)]
    unfold saveFile' idbSaveFile
    rw [h1, if_neg (by simp), h2, if_pos rfl, hpf, if_neg (by simp)]
    rfl
  rw [bindRes_of_ok _ _ () hstep2]
  exact ⟨_, hstepf⟩

/-- C6: a payload write is attempted during `addBook` iff payload bytes are
supplied and the record's content type is not a bare `URL` reference; in
particular without bytes or on a `URL` record both payload stores are
untouched and a subsequent `getFileDataUrl` for the fresh id yields `null`,
while with bytes on a non-URL record the write happens (it stores an entry,
and a forced write fault makes the call reject). -/
theorem C6_payload_write_iff :
    (∀ env st meta fd nowMs rand (today : String),
      (fd = none ∨ meta.fileType = BFileType.URL) →
      (addBook env st meta fd nowMs rand today).1.fsFiles = st.fsFiles ∧
      (addBook env st meta fd nowMs rand today).1.idbFiles = st.idbFiles) ∧
    (∀ env env2 st meta fd nowMs rand (today : String),
      (fd = none ∨ meta.fileType = BFileType.URL) →
      st.fsFiles.all
        (fun e => !(e.1 == nativeFilePath (mkBook meta nowMs rand today).id)) = true →
      st.idbFiles.all (fun e => !(e.id == (mkBook meta nowMs rand today).id)) = true →
      getFileDataUrl env2 (addBook env st meta fd nowMs rand today).1
        (mkBook meta nowMs rand today).id = none) ∧
    (∀ env st meta d nowMs rand (today : String), st.isNative = false →
      st.hasDb = true → env.idbPutBookFails = false → env.idbPutFileFails = true →
      meta.fileType ≠ BFileType.URL →
      (addBook env st meta (some d) nowMs rand today).2 = Except.error ()) ∧
    (∀ env st meta d nowMs rand (today : String), st.isNative = false →
      st.hasDb = true → env.idbPutBookFails = false → env.idbPutFileFails = false →
      meta.fileType ≠ BFileType.URL →
      ∃ rest, (addBook env st meta (some d) nowMs rand today).1.idbFiles =
        { id := (mkBook meta nowMs rand today).id, data := IdbFileContent.numArray d,
          mimeType := orDefault meta.fileMimeType "application/pdf" } :: rest) := by
  refine ⟨?_, ?_, ?_, ?_⟩
  · intro env st meta fd nowMs rand today hfd
    obtain ⟨bk, pb, ib, lb, hstate⟩ :=
      addBook_noPayload_state env st meta fd nowMs rand today hfd
    exact ⟨by rw [hstate], by rw [hstate]⟩
  · intro env env2 st meta fd nowMs rand today hfd hfs hidb
    obtain ⟨bk, pb, ib, lb, hstate⟩ :=
      addBook_noPayload_state env st meta fd nowMs rand today hfd
    apply getFileDataUrl_none_of_absent
    · rw [hstate]; exact hfs
    · rw [hstate]; exact hidb
  · intro env st meta d nowMs rand today h hdb hpb hpf hurl
    exact addBook_web_put_file_fail_rejects env st meta d nowMs rand today h hdb hpb hpf hurl
  · intro env st meta d nowMs rand today h hdb hpb hpf hurl
    exact addBook_web_stores_payload env st meta d nowMs rand today h hdb hpb hpf hurl

theorem C6_payload_write_iff_witness :
    ((addBook {} webSt sampleMeta none 5 "r" "2024-05-01").1.fsFiles = webSt.fsFiles ∧
      (addBook {} webSt sampleMeta none 5 "r" "2024-05-01").1.idbFiles =
        webSt.idbFiles) ∧
    getFileDataUrl {} (addBook {} webSt sampleMeta none 5 "r" "2024-05-01").1
      (mkBook sampleMeta 5 "r" "2024-05-01").id = none ∧
    (addBook { idbPutFileFails := true } webSt sampleMeta (some [9]) 5 "r"
      "2024-05-01").2 = Except.error () ∧
    ∃ rest, (addBook {} webSt sampleMeta (some [9]) 5 "r" "2024-05-01").1.idbFiles =
      { id := (mkBook sampleMeta 5 "r" "2024-05-01").id,
        data := IdbFileContent.numArray [9],
        mimeType := orDefault sampleMeta.fileMimeType "application/pdf" } :: rest :=
  ⟨C6_payload_write_iff.1 {} webSt sampleMeta none 5 "r" "2024-05-01" (Or.inl rfl),
   C6_payload_write_iff.2.1 {} {} webSt sampleMeta none 5 "r" "2024-05-01"
     (Or.inl rfl) rfl rfl,
   C6_payload_write_iff.2.2.1 { idbPutFileFails := true } webSt sampleMeta [9] 5 "r"
     "2024-05-01" rfl rfl rfl rfl (by decide),
   C6_payload_write_iff.2.2.2 {} webSt sampleMeta [9] 5 "r" "2024-05-01" rfl rfl rfl
     rfl (by decide)⟩

/-! ## Claim C7 -/

theorem map_mod256_eq (l : List Nat) (h : ∀ b ∈ l, b < 256) : l.map (· % 256) = l :=
  (List.map_congr_left (fun b hb => Nat.mod_eq_of_lt (h b hb))).trans (List.map_id l)

/-- `_idbSaveFile` stores the payload as a plain `number[]` entry. -/
theorem idbSaveFile_stores_numArray (env : Env) (st : LibState) (f : StoredFileData)
    (hdb : st.hasDb = true) (hpf : env.idbPutFileFails = false) :
    (idbSaveFile env st f).1.idbFiles =
      { id := f.id, data := IdbFileContent.numArray f.data, mimeType := f.mimeType } ::
        st.idbFiles.filter (fun e => !(e.id == f.id)) := by
  unfold idbSaveFile
  rw [hdb, if_pos rfl, hpf, if_neg (by simp)]

/-- `_idbGetFile` on an `ArrayBuffer`-shaped entry returns it as-is. -/
theorem idbGetFile_buffer (env : Env) (st : LibState) (id : String) (bs : List Nat)
    (mt : String) (hdb : st.hasDb = true) (hg : env.idbGetFileFails = false)
    (hfind : st.idbFiles.find? (fun e => e.id == id) =
      some ⟨id, IdbFileContent.buffer bs, mt⟩) :
    idbGetFile env st id = Except.ok (some ⟨id, bs, mt⟩) := by
  unfold idbGetFile
  rw [hdb, if_pos rfl, hg, if_neg (by simp), hfind]

/-- `_idbGetFile` on a `number[]`-shaped entry rebuilds the buffer through
`new Uint8Array(...)` (8-bit truncation of each entry). -/
theorem idbGetFile_numArray (env : Env) (st : LibState) (id : String) (bs : List Nat)
    (mt : String) (hdb : st.hasDb = true) (hg : env.idbGetFileFails = false)
    (hfind : st.idbFiles.find? (fun e => e.id == id) =
      some ⟨id, IdbFileContent.numArray bs, mt⟩) :
    idbGetFile env st id = Except.ok (some ⟨id, bs.map (· % 256), mt⟩) := by
  unfold idbGetFile
  rw [hdb, if_pos rfl, hg, if_neg (by simp), hfind]

/-- `_idbGetFile` on any other shape force-casts it. -/
theorem idbGetFile_other (env : Env) (st : LibState) (id : String) (bs : List Nat)
    (mt : String) (hdb : st.hasDb = true) (hg : env.idbGetFileFails = false)
    (hfind : st.idbFiles.find? (fun e => e.id == id) =
      some ⟨id, IdbFileContent.other bs, mt⟩) :
    idbGetFile env st id = Except.ok (some ⟨id, bs, mt⟩) := by
  unfold idbGetFile
  rw [hdb, if_pos rfl, hg, if_neg (by simp), hfind]

/-- Saving a payload then reading it back returns the same bytes. -/
theorem idb_save_get_roundtrip (env env2 : Env) (st : LibState) (f : StoredFileData)
    (hdb : st.hasDb = true) (hpf : env.idbPutFileFails = false)
    (hg : env2.idbGetFileFails = false) (hbytes : ∀ b ∈ f.data, b < 256) :
    idbGetFile env2 (idbSaveFile env st f).1 f.id = Except.ok (some f) := by
  have hsave := idbSaveFile_stores_numArray env st f hdb hpf
  have hdb' : (idbSaveFile env st f).1.hasDb = true := by
    obtain ⟨ifs, hf⟩ := idbSaveFile_eq env st f
    rw [hf]; exact hdb
  have hfind : (idbSaveFile env st f).1.idbFiles.find? (fun e => e.id == f.id) =
      some ⟨f.id, IdbFileContent.numArray f.data, f.mimeType⟩ := by
    rw [hsave]
    rw [List.find?_cons_of_pos _ (by simp)]
  have hget := idbGetFile_numArray env2 (idbSaveFile env st f).1 f.id f.data
    f.mimeType hdb' hg hfind
  rw [hget, map_mod256_eq f.data hbytes]

/-- C7: the transactional-tier driver stores a payload's content as a plain
numeric byte sequence (never the native buffer type); on read it accepts
all three content shapes (buffer, numeric sequence, other), normalizing to
a buffer, so that a save followed by a get returns the bytes saved. -/
theorem C7_idb_payload_numeric_roundtrip :
    (∀ env st f, st.hasDb = true → env.idbPutFileFails = false →
      (idbSaveFile env st f).1.idbFiles =
        { id := f.id, data := IdbFileContent.numArray f.data,
          mimeType := f.mimeType } :: st.idbFiles.filter (fun e => !(e.id == f.id))) ∧
    (∀ env st id bs mt, st.hasDb = true → env.idbGetFileFails = false →
      st.idbFiles.find? (fun e => e.id == id) =
        some ⟨id, IdbFileContent.buffer bs, mt⟩ →
      idbGetFile env st id = Except.ok (some ⟨id, bs, mt⟩)) ∧
    (∀ env st id bs mt, st.hasDb = true → env.idbGetFileFails = false →
      st.idbFiles.find? (fun e => e.id == id) =
        some ⟨id, IdbFileContent.numArray bs, mt⟩ →
      idbGetFile env st id = Except.ok (some ⟨id, bs.map (· % 256), mt⟩)) ∧
    (∀ env st id bs mt, st.hasDb = true → env.idbGetFileFails = false →
      st.idbFiles.find? (fun e => e.id == id) =
        some ⟨id, IdbFileContent.other bs, mt⟩ →
      idbGetFile env st id = Except.ok (some ⟨id, bs, mt⟩)) ∧
    (∀ env env2 st f, st.hasDb = true → env.idbPutFileFails = false →
      env2.idbGetFileFails = false → (∀ b ∈ f.data, b < 256) →
      idbGetFile env2 (idbSaveFile env st f).1 f.id = Except.ok (some f)) :=
  ⟨fun env st f hdb hpf => idbSaveFile_stores_numArray env st f hdb hpf,
   fun env st id bs mt hdb hg hfind => idbGetFile_buffer env st id bs mt hdb hg hfind,
   fun env st id bs mt hdb hg hfind => idbGetFile_numArray env st id bs mt hdb hg hfind,
   fun env st id bs mt hdb hg hfind => idbGetFile_other env st id bs mt hdb hg hfind,
   fun env env2 st f hdb hpf hg hbytes =>
     idb_save_get_roundtrip env env2 st f hdb hpf hg hbytes⟩

theorem C7_idb_payload_numeric_roundtrip_witness :
    (idbSaveFile {} webSt ⟨"f1", [1, 255], "text/plain"⟩).1.idbFiles =
      { id := "f1", data := IdbFileContent.numArray [1, 255], mimeType := "text/plain" } ::
        webSt.idbFiles.filter (fun e => !(e.id == "f1")) ∧
    idbGetFile {} (idbSaveFile {} webSt ⟨"f1", [1, 255], "text/plain"⟩).1 "f1" =
      Except.ok (some ⟨"f1", [1, 255], "text/plain"⟩) :=
  ⟨C7_idb_payload_numeric_roundtrip.1 {} webSt ⟨"f1", [1, 255], "text/plain"⟩ rfl rfl,
   C7_idb_payload_numeric_roundtrip.2.2.2.2 {} {} webSt ⟨"f1", [1, 255], "text/plain"⟩
     rfl rfl rfl (by decide)⟩

/-! ## Claim C8 -/

/-- C8: deleting an id that is absent from the record set resolves (does
not throw) and leaves the cache and every record collection (IndexedDB
books store, Preferences value, localStorage value) unchanged.  In the
native tier this additionally assumes the Preferences value mirrors the
cache, since that tier rewrites the whole collection from the cache. -/
theorem C8_delete_nonexistent_noop (env : Env) (st : LibState) (id : String)
    (hid : st.books.all (fun b => !(b.id == id)) = true)
    (hidb : st.idbBooks.all (fun b => !(b.id == id)) = true)
    (hdbk : env.idbDeleteBookFails = false) (hdf : env.idbDeleteFileFails = false)
    (hnat : st.isNative = true →
      st.hasPreferences = true ∧ st.prefBooks = some st.books ∧
        env.prefSetFails = false) :
    (deleteBook env st id).2 = Except.ok () ∧
    (deleteBook env st id).1.books = st.books ∧
    (deleteBook env st id).1.idbBooks = st.idbBooks ∧
    (deleteBook env st id).1.prefBooks = st.prefBooks ∧
    (deleteBook env st id).1.localBooks = st.localBooks := by
  have hfilt : st.books.filter (fun b => !(b.id == id)) = st.books := by
    rw [List.filter_eq_self]
    intro a ha
    exact List.all_eq_true.mp hid a ha
  unfold deleteBook
  by_cases hn : st.isNative = true
  · obtain ⟨hp, hpb, hpfail⟩ := hnat hn
    have hdel : deleteBook' env st id =
        ({ st with prefBooks := some st.books }, Except.ok ()) := by
      unfold deleteBook' nativeSaveBooks
      rw [if_pos hn, if_pos hp, if_neg (show ¬env.prefSetFails = true by simp [hpfail]),
        hfilt]
    rw [hdel, bindRes_ok]
    have hdf2 : deleteFile' env { st with prefBooks := some st.books } id =
        (nativeDeleteFile env { st with prefBooks := some st.books } id,
          Except.ok ()) := by
      unfold deleteFile'
      rw [if_pos (show ({ st with prefBooks := some st.books } : LibState).isNative = true
        from hn)]
    rw [hdf2, bindRes_ok]
    obtain ⟨fs2, hndf⟩ := nativeDeleteFile_eq env { st with prefBooks := some st.books } id
    rw [hndf]
    exact ⟨rfl, hfilt, rfl, hpb.symm, rfl⟩
  · have hn' : st.isNative = false := by
      cases hx : st.isNative
      · rfl
      · exact absurd hx hn
    have hidbfilt : st.idbBooks.filter (fun b => !(b.id == id)) = st.idbBooks := by
      rw [List.filter_eq_self]
      intro a ha
      exact List.all_eq_true.mp hidb a ha
    by_cases hdb : st.hasDb = true
    · have hdel : deleteBook' env st id = (st, Except.ok ()) := by
        unfold deleteBook' idbDeleteBook
        rw [if_neg hn, if_pos hdb,
          if_neg (show ¬env.idbDeleteBookFails = true by simp [hdbk]), hidbfilt]
      have hdf2 : deleteFile' env st id =
          ({ st with idbFiles := st.idbFiles.filter (fun e => !(e.id == id)) },
            Except.ok ()) := by
        unfold deleteFile' idbDeleteFile
        rw [if_neg hn, if_pos hdb,
          if_neg (show ¬env.idbDeleteFileFails = true by simp [hdf])]
      rw [hdel, bindRes_ok, hdf2, bindRes_ok]
      exact ⟨rfl, hfilt, rfl, rfl, rfl⟩
    · have hdel : deleteBook' env st id = (st, Except.ok ()) := by
        unfold deleteBook' idbDeleteBook
        rw [if_neg hn, if_neg hdb]
      have hdf2 : deleteFile' env st id = (st, Except.ok ()) := by
        unfold deleteFile' idbDeleteFile
        rw [if_neg hn, if_neg hdb]
      rw [hdel, bindRes_ok, hdf2, bindRes_ok]
      exact ⟨rfl, hfilt, rfl, rfl, rfl⟩

/-- The record created by `addBook(sampleMeta)` at time 1 / suffix `aa`. -/
def sampleBook : UserEbook := mkBook sampleMeta 1 "aa" "2024-01-02"

/-- A web-tier state whose cache and books store hold one record. -/
def webStOne : LibState := { webSt with books := [sampleBook], idbBooks := [sampleBook] }

theorem C8_delete_nonexistent_noop_witness :
    webStOne.books.all (fun b => !(b.id == "nope")) = true ∧
    (deleteBook {} webStOne "nope").2 = Except.ok () ∧
    (deleteBook {} webStOne "nope").1.books = webStOne.books ∧
    (deleteBook {} webStOne "nope").1.idbBooks = webStOne.idbBooks :=
  ⟨by decide,
   (C8_delete_nonexistent_noop {} webStOne "nope" (by decide) (by decide) rfl rfl
     (by decide)).1,
   (C8_delete_nonexistent_noop {} webStOne "nope" (by decide) (by decide) rfl rfl
     (by decide)).2.1,
   (C8_delete_nonexistent_noop {} webStOne "nope" (by decide) (by decide) rfl rfl
     (by decide)).2.2.1⟩

/-! ## Claim C10 -/

/-- C10: in the native tier the MIME type of a fetched payload is taken at
read time from the cached record's `fileMimeType` (falsy values and a
missing record default to `application/pdf`); the MIME type passed at save
time is never stored, so the save result is identical for any MIME type. -/
theorem C10_native_mime_from_cache :
    (∀ env st bid r, nativeGetFile env st bid = some r →
      r.mimeType =
        orDefault ((st.books.find? (fun b => b.id == bid)).bind
          (fun b => b.fileMimeType)) "application/pdf") ∧
    (∀ (env : Env) (st : LibState) (f : StoredFileData) (m1 m2 : String),
      nativeSaveFile env st { f with mimeType := m1 } =
        nativeSaveFile env st { f with mimeType := m2 }) := by
  constructor
  · intro env st bid r h
    unfold nativeGetFile at h
    by_cases hf : st.hasFilesystem = true
    · rw [if_pos hf] at h
      dsimp only at h
      by_cases hr : env.fsReadFails = true
      · rw [if_pos hr] at h
        exact absurd h (by simp)
      · rw [if_neg hr] at h
        rcases hrd : fsRead st.fsFiles (nativeFilePath bid) with _ | content
        · rw [hrd] at h
          exact absurd h (by simp)
        · rw [hrd] at h
          cases content with
          | text s =>
              injection h with h'
              rw [← h']
          | raw bytes =>
              injection h with h'
              rw [← h']
    · rw [if_neg hf] at h
      exact absurd h (by simp)
  · intro env st f m1 m2
    rfl

/-- A native state whose files area holds raw bytes for id `b1`. -/
def natFileSt : LibState :=
  { natFsSt with fsFiles := [(nativeFilePath "b1", FsContent.raw [1, 2])] }

theorem C10_native_mime_from_cache_witness :
    nativeGetFile {} natFileSt "b1" = some ⟨"b1", [1, 2], "application/pdf"⟩ ∧
    (⟨"b1", [1, 2], "application/pdf"⟩ : StoredFileData).mimeType =
      orDefault ((natFileSt.books.find? (fun b => b.id == "b1")).bind
        (fun b => b.fileMimeType)) "application/pdf" :=
  ⟨by decide,
   C10_native_mime_from_cache.1 {} natFileSt "b1" ⟨"b1", [1, 2], "application/pdf"⟩
     (by decide)⟩

/-! ## Claim C5 -/

/-- A patch carrying only `addedDate`. -/
def datePatch : EbookPatch := { addedDate := some "1999-12-31" }

/-- A web-tier state without a DB handle caching one record. -/
def stOne : LibState :=
  { books := [sampleBook], isNative := false, hasPreferences := false,
    hasFilesystem := false, hasDb := false, prefBooks := none, fsFiles := [],
    idbBooks := [], idbFiles := [], localBooks := none }

/-- C5 as stated is false: `updateBook` spreads the caller's patch over the
cached record (`{ ...updated, ...updates }`), so a patch carrying
`addedDate` overwrites the supposedly immutable field. -/
theorem C5_immutable_fields_cex :
    sampleBook.addedDate = "2024-01-02" ∧
    (updateBook {} stOne sampleBook.id datePatch).1.books.map
      (fun b => b.addedDate) = ["1999-12-31"] :=
  ⟨rfl, rfl⟩

/-- C5 amended: provided the patch carries neither `id` nor `addedDate`
and the cached ids are distinct (the stated id-uniqueness invariant),
`updateBook` preserves every cached record's id and addedDate, and the
merged record it persists keeps the id and addedDate of the record it
replaces. -/
theorem C5_immutable_fields_amended (env : Env) (st : LibState) (id : String)
    (p : EbookPatch) (hid : p.id = none) (hdate : p.addedDate = none)
    (hu : (st.books.map (fun b => b.id)).Nodup) :
    (updateBook env st id p).1.books.map (fun b => (b.id, b.addedDate)) =
      st.books.map (fun b => (b.id, b.addedDate)) ∧
    (∀ b, st.books.find? (fun x => x.id == id) = some b →
      (applyPatch b p).id = b.id ∧ (applyPatch b p).addedDate = b.addedDate) := by
  have happly : ∀ b : UserEbook,
      (applyPatch b p).id = b.id ∧ (applyPatch b p).addedDate = b.addedDate := by
    intro b
    constructor
    · simp [applyPatch, hid]
    · simp [applyPatch, hdate]
  refine ⟨?_, fun b _ => happly b⟩
  rcases updateBook_cases env st id p with ⟨-, hbooks⟩ |
    ⟨-, hbooks | ⟨updated, hfind, hbooks⟩⟩
  · rw [hbooks]
  · rw [hbooks]
  · rw [hbooks, List.map_map]
    apply List.map_congr_left
    intro b hb
    by_cases hbid : (b.id == id) = true
    · have hmem : updated ∈ st.books := List.mem_of_find?_eq_some hfind
      have hup := List.find?_some hfind
      have hbu : b = updated :=
        List.inj_on_of_nodup_map hu hb hmem (by rw [eq_of_beq hbid, eq_of_beq hup])
      subst hbu
      show ((if (b.id == id) = true then applyPatch b p else b).id,
        (if (b.id == id) = true then applyPatch b p else b).addedDate) =
        (b.id, b.addedDate)
      rw [if_pos hbid, (happly b).1, (happly b).2]
    · show ((if (b.id == id) = true then applyPatch updated p else b).id,
        (if (b.id == id) = true then applyPatch updated p else b).addedDate) =
        (b.id, b.addedDate)
      rw [if_neg hbid]

theorem C5_immutable_fields_amended_witness :
    (({ title := some "X" } : EbookPatch).id = none) ∧
    (updateBook {} stOne sampleBook.id { title := some "X" }).1.books.map
      (fun b => (b.id, b.addedDate)) =
      stOne.books.map (fun b => (b.id, b.addedDate)) :=
  ⟨rfl,
   (C5_immutable_fields_amended {} stOne sampleBook.id { title := some "X" } rfl rfl
     (by decide)).1⟩

/-! ## Claim C4 -/

/-- Numeric key of an ISO `YYYY-MM-DD` stamp: its digits, in order. -/
def dateKey (s : String) : Nat :=
  s.data.foldl (fun a c => if c.isDigit then a * 10 + (c.toNat - 48) else a) 0

/-- Descending `addedDate` order (the order the loaders establish). -/
def sortedBooks (l : List UserEbook) : Prop :=
  l.Pairwise (fun a b => dateKey b.addedDate ≤ dateKey a.addedDate)

/-- Distinct cached ids (the stated id-uniqueness invariant). -/
def uniqueIds (l : List UserEbook) : Prop := (l.map (fun b => b.id)).Nodup

instance (l : List UserEbook) : Decidable (sortedBooks l) :=
  List.instDecidablePairwise l

instance (l : List UserEbook) : Decidable (uniqueIds l) :=
  List.nodupDecidable _

/-- One facade operation together with the clock/fault inputs of the call. -/
inductive LOp
  | addOp (env : Env) (meta : BookMeta) (fd : Option (List Nat))
      (nowMs : Nat) (rand today : String)
  | updateOp (env : Env) (id : String) (p : EbookPatch)
  | deleteOp (env : Env) (id : String)

/-- The state after one facade operation. -/
def applyOp (st : LibState) : LOp → LibState
  | LOp.addOp env meta fd nowMs rand today => (addBook env st meta fd nowMs rand today).1
  | LOp.updateOp env id p => (updateBook env st id p).1
  | LOp.deleteOp env id => (deleteBook env st id).1

/-- The state after a sequence of facade operations. -/
def applyOps (st : LibState) : List LOp → LibState
  | [] => st
  | op :: rest => applyOps (applyOp st op) rest

/-- Side conditions under which the ordering invariant is preserved: an
add runs at a date at least as recent as everything cached and with a
fresh id, and an update patches neither `id` nor `addedDate`. -/
def goodOp (st : LibState) : LOp → Bool
  | LOp.addOp _env meta _fd nowMs rand today =>
      st.books.all (fun b => decide (dateKey b.addedDate ≤ dateKey today)) &&
      st.books.all (fun b => !(b.id == (mkBook meta nowMs rand today).id))
  | LOp.updateOp _env _id p => p.id.isNone && p.addedDate.isNone
  | LOp.deleteOp _env _id => true

/-- `goodOp` holding along the whole run. -/
def goodSeq : LibState → List LOp → Bool
  | _, [] => true
  | st, op :: rest => goodOp st op && goodSeq (applyOp st op) rest

theorem step_add (st : LibState) (env : Env) (meta : BookMeta)
    (fd : Option (List Nat)) (nowMs : Nat) (rand today : String)
    (hs : sortedBooks st.books) (hu : uniqueIds st.books)
    (hg : goodOp st (LOp.addOp env meta fd nowMs rand today) = true) :
    sortedBooks (applyOp st (LOp.addOp env meta fd nowMs rand today)).books ∧
    uniqueIds (applyOp st (LOp.addOp env meta fd nowMs rand today)).books := by
  unfold applyOp
  rcases addBook_cases env st meta fd nowMs rand today with ⟨-, hbooks⟩ | ⟨-, hbooks⟩
  · rw [hbooks]; exact ⟨hs, hu⟩
  · rw [hbooks]
    simp only [goodOp, Bool.and_eq_true, List.all_eq_true] at hg
    obtain ⟨hdatele, hfresh⟩ := hg
    constructor
    · unfold sortedBooks
      rw [List.pairwise_cons]
      exact ⟨fun b hb => of_decide_eq_true (hdatele b hb), hs⟩
    · unfold uniqueIds
      rw [List.map_cons, List.nodup_cons]
      refine ⟨fun hmem => ?_, hu⟩
      obtain ⟨b, hb, hbid⟩ := List.mem_map.mp hmem
      have hnot := hfresh b hb
      rw [hbid] at hnot
      simp at hnot

theorem step_update (st : LibState) (env : Env) (id : String) (p : EbookPatch)
    (hs : sortedBooks st.books) (hu : uniqueIds st.books)
    (hg : goodOp st (LOp.updateOp env id p) = true) :
    sortedBooks (applyOp st (LOp.updateOp env id p)).books ∧
    uniqueIds (applyOp st (LOp.updateOp env id p)).books := by
  unfold applyOp
  simp only [goodOp, Bool.and_eq_true, Option.isNone_iff_eq_none] at hg
  obtain ⟨hpid, hpdate⟩ := hg
  rcases updateBook_cases env st id p with ⟨-, hbooks⟩ |
    ⟨-, hbooks | ⟨updated, hfind, hbooks⟩⟩
  · rw [hbooks]; exact ⟨hs, hu⟩
  · rw [hbooks]; exact ⟨hs, hu⟩
  · rw [hbooks]
    have hkey : ∀ b ∈ st.books,
        (if (b.id == id) = true then applyPatch updated p else b).id = b.id ∧
        (if (b.id == id) = true then applyPatch updated p else b).addedDate =
          b.addedDate := by
      intro b hb
      by_cases hbid : (b.id == id) = true
      · have hmem : updated ∈ st.books := List.mem_of_find?_eq_some hfind
        have hup := List.find?_some hfind
        have hbu : b = updated :=
          List.inj_on_of_nodup_map hu hb hmem (by rw [eq_of_beq hbid, eq_of_beq hup])
        subst hbu
        rw [if_pos hbid]
        constructor
        · simp [applyPatch, hpid]
        · simp [applyPatch, hpdate]
      · rw [if_neg hbid]
        exact ⟨rfl, rfl⟩
    constructor
    · unfold sortedBooks
      rw [List.pairwise_map]
      refine List.Pairwise.imp_of_mem ?_ hs
      intro a b ha hb hab
      rw [(hkey a ha).2, (hkey b hb).2]
      exact hab
    · unfold uniqueIds
      rw [List.map_map]
      have hmapeq : st.books.map ((fun b => b.id) ∘
          (fun b => if b.id == id then applyPatch updated p else b)) =
          st.books.map (fun b => b.id) :=
        List.map_congr_left (fun b hb => (hkey b hb).1)
      rw [hmapeq]
      exact hu

theorem step_delete (st : LibState) (env : Env) (id : String)
    (hs : sortedBooks st.books) (hu : uniqueIds st.books) :
    sortedBooks (applyOp st (LOp.deleteOp env id)).books ∧
    uniqueIds (applyOp st (LOp.deleteOp env id)).books := by
  unfold applyOp
  rcases deleteBook_cases env st id with ⟨-, hbooks⟩ | ⟨-, hbooks⟩
  · rw [hbooks]; exact ⟨hs, hu⟩
  · rw [hbooks]
    constructor
    · exact List.Pairwise.sublist (List.filter_sublist _) hs
    · exact List.Nodup.sublist (List.Sublist.map _ (List.filter_sublist _)) hu

/-- C4 amended: starting from a cache sorted descending by `addedDate`
with distinct ids, any sequence of adds (each at a date at least as recent
as everything cached and with a fresh id), updates whose patches touch
neither `id` nor `addedDate`, and deletes — under any fault switches —
keeps the cache sorted descending by `addedDate` and its ids distinct; the
operations only prepend, replace in place, or filter, so records with
equal dates keep their relative order. -/
theorem C4_ordering_invariant_amended (ops : List LOp) (st : LibState)
    (hs : sortedBooks st.books) (hu : uniqueIds st.books)
    (hg : goodSeq st ops = true) :
    sortedBooks (applyOps st ops).books ∧ uniqueIds (applyOps st ops).books := by
  induction ops generalizing st with
  | nil => exact ⟨hs, hu⟩
  | cons op rest ih =>
      simp only [goodSeq, Bool.and_eq_true] at hg
      obtain ⟨hgo, hgs⟩ := hg
      have hstep : sortedBooks (applyOp st op).books ∧ uniqueIds (applyOp st op).books := by
        cases op with
        | addOp env meta fd nowMs rand today =>
            exact step_add st env meta fd nowMs rand today hs hu hgo
        | updateOp env id p => exact step_update st env id p hs hu hgo
        | deleteOp env id => exact step_delete st env id hs hu
      rw [applyOps]
      exact ih (applyOp st op) hstep.1 hstep.2 hgs

/-- A record added later than `sampleBook`. -/
def bookA : UserEbook := mkBook sampleMeta 2 "bb" "2024-03-05"

/-- A sorted two-record web-tier cache (no DB handle). -/
def stTwo : LibState := { stOne with books := [bookA, sampleBook] }

/-- C4 as stated is false: a single `updateBook` whose patch carries a
newer `addedDate` replaces the record in place, breaking the descending
order of the cache. -/
theorem C4_ordering_invariant_cex :
    sortedBooks stTwo.books ∧
    ¬ sortedBooks (applyOps stTwo
      [LOp.updateOp {} sampleBook.id { addedDate := some "2025-01-01" }]).books := by
  constructor
  · decide
  · decide

theorem C4_ordering_invariant_amended_witness :
    sortedBooks stTwo.books ∧ uniqueIds stTwo.books ∧
    goodSeq stTwo
      [LOp.addOp {} sampleMeta none 9 "zz" "2024-12-31",
       LOp.updateOp {} bookA.id { title := some "X" },
       LOp.deleteOp {} sampleBook.id] = true ∧
    sortedBooks (applyOps stTwo
      [LOp.addOp {} sampleMeta none 9 "zz" "2024-12-31",
       LOp.updateOp {} bookA.id { title := some "X" },
       LOp.deleteOp {} sampleBook.id]).books :=
  ⟨by decide, by decide, by decide,
   (C4_ordering_invariant_amended
     [LOp.addOp {} sampleMeta none 9 "zz" "2024-12-31",
      LOp.updateOp {} bookA.id { title := some "X" },
      LOp.deleteOp {} sampleBook.id] stTwo (by decide) (by decide) (by decide)).1⟩

end Devisa
